import Mathlib

set_option maxRecDepth 4000

/-!
# Verification of the CBTPlayer synchronization core

Shallow embedding, in Lean 4, of the timing core of the CBTPlayer media
player: the timeline index (`src/renderer/utils/timeUtils.ts`), the master
clock (`src/renderer/services/MasterClock.ts`), the manifest loader
(`src/main/contentLoader.ts`) and the per-manager drift-correction passes
(`src/renderer/managers/VideoJsManager.ts`, `AudioManager.ts`).

JavaScript numbers are modelled as rationals (`ℚ`); JavaScript truthiness
of an optional numeric field (`x || y`, `if (x)`) is modelled explicitly:
`none` and `some 0` are falsy.  Stateful methods become pure state-passing
functions returning the new state together with the events they emit.
-/

/-- A track item as in `src/types` / `contentLoader.ts`: `id`, `file`,
`start_ms`, optional `duration_ms` and `end_ms`. -/
structure TrackItem where
  id : String
  file : String
  start_ms : ℚ
  duration_ms : Option ℚ
  end_ms : Option ℚ
  deriving DecidableEq, Repr

instance : Inhabited TrackItem := ⟨⟨"", "", 0, none, none⟩⟩

/-- JavaScript truthiness of an optional number: `undefined`/`null` and `0`
are falsy. -/
def qTruthy : Option ℚ → Bool
  | none => false
  | some x => x ≠ 0

/-- The effective end of an item, exactly as computed throughout
`timeUtils.ts`: `item.end_ms || (item.start_ms + (item.duration_ms || 0))`.
A falsy `end_ms` (absent or `0`) falls back to `start_ms + duration_ms`,
a falsy `duration_ms` contributes `0`. -/
def effectiveEnd (item : TrackItem) : ℚ :=
  if qTruthy item.end_ms then item.end_ms.getD 0
  else item.start_ms + item.duration_ms.getD 0

/-- In-range array access `items[i]` (the source only indexes in range). -/
def itemAt (items : List TrackItem) (i : ℕ) : TrackItem :=
  items.getD i default

/-- `items[i].start_ms`. -/
def sIdx (items : List TrackItem) (i : ℕ) : ℚ :=
  (itemAt items i).start_ms

/-- The effective end of `items[i]`. -/
def eIdx (items : List TrackItem) (i : ℕ) : ℚ :=
  effectiveEnd (itemAt items i)

/-- `Math.floor((left + right) / 2)` with `right = rightPlusOne - 1`. -/
def midIdx (left rightPlusOne : ℕ) : ℕ :=
  (left + (rightPlusOne - 1)) / 2

/-- The binary-search loop of `findItemAtTime` (`timeUtils.ts:20-46`),
with the window encoded as `[left, rightPlusOne)` (`rightPlusOne` is the
source's `right + 1`, so the loop condition `left <= right` becomes
`left < rightPlusOne`) and a fuel argument for structural recursion; the
caller passes fuel `items.length`, which bounds the window size. -/
def findLoop (items : List TrackItem) (t : ℚ) :
    ℕ → ℕ → ℕ → Option TrackItem
  | 0, _, _ => none
  | fuel + 1, left, rightPlusOne =>
    if left < rightPlusOne then
      if sIdx items (midIdx left rightPlusOne) ≤ t ∧
          t < eIdx items (midIdx left rightPlusOne) then
        some (itemAt items (midIdx left rightPlusOne))
      else if midIdx left rightPlusOne = items.length - 1 ∧
          t = eIdx items (midIdx left rightPlusOne) then
        some (itemAt items (midIdx left rightPlusOne))
      else if t < sIdx items (midIdx left rightPlusOne) then
        findLoop items t fuel left (midIdx left rightPlusOne)
      else
        findLoop items t fuel (midIdx left rightPlusOne + 1) rightPlusOne
    else none

/-- `findItemAtTime(items, timeMs)` (`timeUtils.ts:11-49`): clamp the time
to `≥ 0`, then binary-search for the item whose half-open range contains
it, with the special case accepting the exact end of the last item. -/
def findItemAtTime (items : List TrackItem) (timeMs : ℚ) : Option TrackItem :=
  if items.length = 0 then none
  else findLoop items (max 0 timeMs) items.length 0 items.length

/-- Specification-side lookup, written from the spec's words: the (unique)
item whose half-open interval `[start_ms, effectiveEnd)` contains the
clamped time; if none and the clamped time equals the last item's
effective end, the last item; otherwise none. -/
def specFindItemAtTime (items : List TrackItem) (timeMs : ℚ) :
    Option TrackItem :=
  let tc := max 0 timeMs
  match items.find? (fun it => decide (it.start_ms ≤ tc ∧ tc < effectiveEnd it)) with
  | some it => some it
  | none =>
    match items.getLast? with
    | some last => if tc = effectiveEnd last then some last else none
    | none => none

/-- `calculateItemRelativeTime(item, masterTimeMs)` (`timeUtils.ts:55-73`):
seconds from the item's start, `0` before the start, capped at
`duration_ms / 1000` when `duration_ms` is truthy. -/
def calculateItemRelativeTime (item : TrackItem) (masterTimeMs : ℚ) : ℚ :=
  if masterTimeMs - item.start_ms < 0 then 0
  else if qTruthy item.duration_ms then
    min ((masterTimeMs - item.start_ms) / 1000) (item.duration_ms.getD 0 / 1000)
  else (masterTimeMs - item.start_ms) / 1000

/-! ## MasterClock (`src/renderer/services/MasterClock.ts`)

The clock's mutable fields become a state record; `null`-able handles
(`seekPromise`, `animationFrameId`, `syncInterval`) become booleans; every
method becomes a pure function from the old state (plus the current
wall-clock reading, the source's `performance.now()` / `Date.now()`) to the
new state and the events it emits. -/

/-- The event tags of `ClockEventType` in `MasterClock.ts:6`. -/
inductive ClockEventType where
  | play
  | pause
  | seek
  | ratechange
  | timeupdate
  | ended
  | sync
  deriving DecidableEq, Repr

/-- `ClockEvent` (`MasterClock.ts:8-13`). -/
structure ClockEvent where
  type : ClockEventType
  time : ℚ
  playbackRate : ℚ
  isPlaying : Bool
  deriving DecidableEq, Repr

/-- The private fields of the `MasterClock` class (`MasterClock.ts:18-42`)
that the verified methods read or write.  `seekInFlight` models
`seekPromise !== null`, `updateLoopRunning` models
`animationFrameId !== null`, `syncIntervalRunning` models
`syncInterval !== null`.  The FPS counters are omitted (no verified method
depends on them). -/
structure ClockState where
  currentTime : ℚ
  duration : ℚ
  playbackRate : ℚ
  isPlaying : Bool
  startTime : ℚ
  lastUpdateTime : ℚ
  useVideoSync : Bool
  lastVideoUpdateTime : ℚ
  isSeeking : Bool
  lastSeekTime : ℚ
  lastSeekTimestamp : ℚ
  seekInFlight : Bool
  lastJumpTime : ℚ
  updateLoopRunning : Bool
  syncIntervalRunning : Bool
  deriving DecidableEq, Repr

/-- What `seek` (`MasterClock.ts:136-160`) decides to do: drop the request
as a duplicate (returning the stored promise), await the in-flight seek, or
start a new coordination pass at the clamped target. -/
inductive SeekAction where
  | duplicate
  | awaitInFlight
  | coordinate (clampedTime : ℚ)
  deriving DecidableEq, Repr

/-- `seek(timeMs)` up to the hand-off to `performSeek`
(`MasterClock.ts:136-160`): clamp the target to `[0, duration]`; drop it if
it is within `1` ms of the last applied target and within the `200` ms
debounce window; await an in-flight seek; otherwise record the target and
start a coordination pass.  `now` is the source's `Date.now()`. -/
def clockSeek (st : ClockState) (timeMs now : ℚ) : ClockState × SeekAction :=
  let clampedTime := max 0 (min timeMs st.duration)
  if |clampedTime - st.lastSeekTime| < 1 ∧ now - st.lastSeekTimestamp < 200 then
    (st, SeekAction.duplicate)
  else if st.isSeeking ∧ st.seekInFlight then
    (st, SeekAction.awaitInFlight)
  else
    ({st with lastSeekTime := clampedTime, lastSeekTimestamp := now,
              seekInFlight := true},
     SeekAction.coordinate clampedTime)

/-- How one registered manager's `seek(clampedTime)` call behaves, seen
from `performSeek`'s per-manager wrapper (`MasterClock.ts:178-203`): the
returned promise fulfills after some delay, rejects after some delay,
never settles, or the manager returns a non-promise. -/
inductive ManagerSeekBehavior where
  | fulfills (after : ℚ)
  | rejects (after : ℚ)
  | neverSettles
  | notAPromise
  deriving DecidableEq, Repr

/-- `SEEK_TIMEOUT` (`MasterClock.ts:172`): 3 seconds per manager. -/
def SEEK_TIMEOUT : ℚ := 3000

/-- When the wrapper promise around one manager's seek settles
(`MasterClock.ts:178-203`): at the native settle time if that comes before
the `SEEK_TIMEOUT` timer, at `SEEK_TIMEOUT` if the native promise is
slower or never settles, immediately for a non-promise. -/
def branchSettleTime : ManagerSeekBehavior → ℚ
  | ManagerSeekBehavior.fulfills a => min a SEEK_TIMEOUT
  | ManagerSeekBehavior.rejects a => min a SEEK_TIMEOUT
  | ManagerSeekBehavior.neverSettles => SEEK_TIMEOUT
  | ManagerSeekBehavior.notAPromise => 0

/-- Whether the wrapper promise fulfills.  Every path of the wrapper calls
`resolve()` — the timeout path (`MasterClock.ts:180-183`), the success path,
the `.catch` path (`MasterClock.ts:194-198`) and the non-promise path — so
no branch ever rejects. -/
def branchResolved : ManagerSeekBehavior → Bool := fun _ => true

/-- Whether the branch is logged as that manager's failure: a rejection
(`MasterClock.ts:196`) or a timeout (`MasterClock.ts:181`). -/
def branchFailed : ManagerSeekBehavior → Bool
  | ManagerSeekBehavior.fulfills _ => false
  | ManagerSeekBehavior.rejects _ => true
  | ManagerSeekBehavior.neverSettles => true
  | ManagerSeekBehavior.notAPromise => false

/-- `performSeek(clampedTime)` (`MasterClock.ts:162-249`): set `isSeeking`,
move `currentTime` to the clamped target, re-base `startTime` when playing,
fan out to the managers, wait for `Promise.allSettled` (which resolves when
the last wrapper settles — returned here as the delay after which the
`Seek` event is emitted), then emit `seek` and clear `isSeeking` and the
stored promise.  The trailing 100 ms `timeupdate` (`MasterClock.ts:239-248`)
is outside the coordination and not modelled. -/
def performSeek (st : ClockState) (clampedTime now : ℚ)
    (managerBehaviors : List ManagerSeekBehavior) :
    ClockState × ℚ × ClockEvent :=
  let st1 : ClockState :=
    { st with
      isSeeking := true
      currentTime := clampedTime
      startTime := if st.isPlaying then now - clampedTime / st.playbackRate
                   else st.startTime }
  let emitDelay := (managerBehaviors.map branchSettleTime).foldr max 0
  let ev : ClockEvent :=
    ⟨ClockEventType.seek, st1.currentTime, st1.playbackRate, st1.isPlaying⟩
  ({ st1 with isSeeking := false, seekInFlight := false }, emitDelay, ev)

/-- `setPlaybackRate(rate)` (`MasterClock.ts:254-276`): reject rates
outside `(0, 4]` without touching anything; otherwise freeze the
extrapolated position into `currentTime`, re-base `startTime` to the new
rate (when playing), set the rate and emit `ratechange`. -/
def setPlaybackRate (st : ClockState) (rate now : ℚ) :
    ClockState × Option ClockEvent :=
  if rate ≤ 0 ∨ rate > 4 then (st, none)
  else
    let st1 : ClockState :=
      if st.isPlaying then
        { st with
          currentTime := (now - st.startTime) * st.playbackRate
          startTime := now - (now - st.startTime) * st.playbackRate / rate }
      else st
    let st2 := { st1 with playbackRate := rate }
    (st2, some ⟨ClockEventType.ratechange, st2.currentTime, st2.playbackRate,
                st2.isPlaying⟩)

/-- The position the clock's self-driven extrapolation displays at wall
time `now`: `elapsed × playbackRate` while playing (`MasterClock.ts:399`,
`MasterClock.ts:263-264`), the frozen `currentTime` otherwise. -/
def displayedPosition (st : ClockState) (now : ℚ) : ℚ :=
  if st.isPlaying then (now - st.startTime) * st.playbackRate
  else st.currentTime

/-- `updateTimeFromVideo(timeMs, isVideoPlaying)` (`MasterClock.ts:282-356`).
Returns the new state and whether a `timeupdate` was pushed directly to the
listeners.  `now` is the source's `performance.now()`. -/
def updateTimeFromVideo (st : ClockState) (timeMs : ℚ)
    (isVideoPlaying : Bool) (now : ℚ) : ClockState × Bool :=
  if st.isSeeking then (st, false)
  else if ¬ st.useVideoSync then (st, false)
  else
    let timeDiff := |st.currentTime - timeMs|
    if timeMs < 0 ∨ timeMs > st.duration + 1000 then (st, false)
    else
      let isLargeJump := timeDiff > 1000
      let isBackwardJump := timeMs < st.currentTime - 500
      let isResetToZero := timeMs = 0 ∧ st.currentTime > 1000
      if isResetToZero then (st, false)
      else if timeDiff > 50 ∨ st.isPlaying ≠ isVideoPlaying ∨ isLargeJump ∨
          isBackwardJump then
        if (isLargeJump ∨ isBackwardJump) ∧ now - st.lastJumpTime < 1000 then
          (st, false)
        else
          let st1 := if isLargeJump ∨ isBackwardJump
                     then { st with lastJumpTime := now } else st
          let st2 := { st1 with currentTime := timeMs }
          let st3 :=
            if st2.isPlaying ≠ isVideoPlaying then
              { st2 with
                isPlaying := isVideoPlaying
                startTime := if isVideoPlaying
                             then now - st2.currentTime / st2.playbackRate
                             else st2.startTime }
            else st2
          if isLargeJump ∨ isBackwardJump ∨ now - st3.lastVideoUpdateTime > 100
          then ({ st3 with lastVideoUpdateTime := now }, true)
          else (st3, false)
      else (st, false)

/-- One pass of the `requestAnimationFrame` loop `update()`
(`MasterClock.ts:386-442`), without the FPS bookkeeping and the
re-scheduling of the next frame.  Returns the new state and the emitted
events in order.  While seeking or paused nothing happens; while playing,
if the clock is self-driven (or the elected video source is stale by more
than 500 ms) the position is recomputed as `elapsed × rate` clamped to the
duration, and reaching the duration clamps, pauses (which emits `pause`
and stops both tickers) and emits `ended`; otherwise a `timeupdate` is
emitted at most every 100 ms. -/
def clockUpdate (st : ClockState) (now : ℚ) : ClockState × List ClockEvent :=
  if st.isSeeking then (st, [])
  else if st.isPlaying then
    let elapsed := (now - st.startTime) * st.playbackRate
    let selfDriven := ¬ st.useVideoSync ∨ now - st.lastVideoUpdateTime > 500
    let st1 := if selfDriven
               then { st with currentTime := min elapsed st.duration } else st
    if selfDriven ∧ st1.currentTime ≥ st1.duration then
      let st2 : ClockState :=
        { st1 with
          currentTime := st1.duration
          isPlaying := false
          updateLoopRunning := false
          syncIntervalRunning := false }
      (st2, [⟨ClockEventType.pause, st2.currentTime, st2.playbackRate, false⟩,
             ⟨ClockEventType.ended, st2.currentTime, st2.playbackRate, false⟩])
    else if now - st1.lastUpdateTime ≥ 100 then
      ({ st1 with lastUpdateTime := now },
       [⟨ClockEventType.timeupdate, st1.currentTime, st1.playbackRate, true⟩])
    else (st1, [])
  else (st, [])

/-! ## Manifest validation (`src/main/contentLoader.ts`) -/

/-- JavaScript truthiness of an optional string: `undefined`/`null` and the
empty string are falsy. -/
def strTruthy : Option String → Bool
  | none => false
  | some s => s ≠ ""

/-- An item of a parsed manifest (`contentLoader.ts:24-32`); `start_ms` is
optional because validation checks `item.start_ms === undefined`. -/
structure ManifestItem where
  id : String
  file : String
  start_ms : Option ℚ
  deriving DecidableEq, Repr

/-- A track of a parsed manifest (`contentLoader.ts:18-22`); `items` is
optional because validation checks `!track.items` (an empty array is
truthy and passes). -/
structure ManifestTrack where
  id : String
  type : String
  items : Option (List ManifestItem)
  deriving DecidableEq, Repr

/-- A parsed manifest (`contentLoader.ts:6-16`); every field the validator
looks at is optional, mirroring what `JSON.parse` can produce. -/
structure Manifest where
  version : Option String
  duration_ms : Option ℚ
  tracks : Option (List ManifestTrack)
  deriving DecidableEq, Repr

/-- The item loop of `validateManifest` (`contentLoader.ts:145-149`):
`!item.id || !item.file || item.start_ms === undefined` throws. -/
def validateItems (trackId : String) : List ManifestItem → Except String Unit
  | [] => Except.ok ()
  | it :: rest =>
    if it.id = "" ∨ it.file = "" ∨ it.start_ms = none then
      Except.error ("Invalid item in track " ++ trackId ++ ": " ++ it.id)
    else validateItems trackId rest

/-- The track loop of `validateManifest` (`contentLoader.ts:140-150`):
`!track.id || !track.type || !track.items` throws, then the items are
checked. -/
def validateTracks : List ManifestTrack → Except String Unit
  | [] => Except.ok ()
  | tr :: rest =>
    if tr.id = "" ∨ tr.type = "" then
      Except.error ("Invalid track structure: " ++ tr.id)
    else
      match tr.items with
      | none => Except.error ("Invalid track structure: " ++ tr.id)
      | some its =>
        match validateItems tr.id its with
        | Except.error e => Except.error e
        | Except.ok _ => validateTracks rest

/-- `validateManifest(manifest)` (`contentLoader.ts:127-151`), with `throw`
modelled as `Except.error`: missing/empty version, falsy or non-positive
`duration_ms`, missing tracks array, then the per-track and per-item
checks. -/
def validateManifest (m : Manifest) : Except String Unit :=
  if ¬ strTruthy m.version then Except.error "Manifest missing version"
  else if ¬ qTruthy m.duration_ms ∨ m.duration_ms.getD 0 ≤ 0 then
    Except.error "Invalid duration_ms in manifest"
  else
    match m.tracks with
    | none => Except.error "Manifest missing tracks array"
    | some tracks => validateTracks tracks

/-- One item of `updateManifestPaths` (`contentLoader.ts:159-172`): a
relative `file` is rewritten through `path.resolve`; the filesystem
existence check only logs.  `resolve` and `isAbsolute` abstract the `path`
module. -/
def updateItemPath (resolve : String → String → String)
    (isAbsolute : String → Bool) (basePath : String) (it : ManifestItem) :
    ManifestItem :=
  if isAbsolute it.file then it
  else { it with file := resolve basePath it.file }

/-- `updateManifestPaths(manifest, basePath)` (`contentLoader.ts:153-175`):
rewrite every item's file reference in place. -/
def updateManifestPaths (resolve : String → String → String)
    (isAbsolute : String → Bool) (m : Manifest) (basePath : String) :
    Manifest :=
  { m with
    tracks := m.tracks.map (List.map (fun tr =>
      { tr with
        items := tr.items.map (List.map
          (updateItemPath resolve isAbsolute basePath)) })) }

/-- The post-parse part of `loadManifest(manifestPath)`
(`contentLoader.ts:108-125`): validate, and only on success rewrite the
paths and return the manifest; a validation error aborts before any path
rewriting. -/
def loadManifest (resolve : String → String → String)
    (isAbsolute : String → Bool) (m : Manifest) (basePath : String) :
    Except String Manifest :=
  match validateManifest m with
  | Except.error e => Except.error e
  | Except.ok _ => Except.ok (updateManifestPaths resolve isAbsolute m basePath)

/-- The rejection condition of claim C7, written from the spec's words:
the manifest lacks a (non-empty) version, has `duration_ms` missing or
`≤ 0`, lacks a tracks array, contains a track missing a non-empty `id`,
`type`, or `items`, or contains an item missing a non-empty `id`, a file
reference, or a defined `start_ms`. -/
def specManifestInvalid (m : Manifest) : Prop :=
  (m.version = none ∨ m.version = some "") ∨
  (m.duration_ms = none ∨ ∃ d, m.duration_ms = some d ∧ d ≤ 0) ∨
  m.tracks = none ∨
  (∃ tracks, m.tracks = some tracks ∧
    ∃ tr ∈ tracks, tr.id = "" ∨ tr.type = "" ∨ tr.items = none) ∨
  (∃ tracks, m.tracks = some tracks ∧
    ∃ tr ∈ tracks, ∃ its, tr.items = some its ∧
      ∃ it ∈ its, it.id = "" ∨ it.file = "" ∨ it.start_ms = none)

/-! ## Drift correction (`VideoJsManager.ts`, `AudioManager.ts`)

Only the periodic sync pass of each manager is embedded: the fields it
reads and writes, the drift measurement against
`calculateItemRelativeTime`, and the correction decision.  Writes to the
native source's position are returned explicitly (`Option ℚ`) so that "the
native source's current time is not written" is a provable statement. -/

/-- `SyncMetrics` plus the rolling drift history shared by both managers
(`VideoJsManager.ts:21-29`, `AudioManager.ts:26-34`). -/
structure SyncMetrics where
  drift : ℚ
  corrections : ℕ
  averageDrift : ℚ
  maxDrift : ℚ
  driftHistory : List ℚ
  deriving DecidableEq, Repr

/-- `MAX_DRIFT_HISTORY` (both managers): 100 samples. -/
def MAX_DRIFT_HISTORY : ℕ := 100

/-- `updateSyncMetrics(drift)` (`VideoJsManager.ts:683-694`,
`AudioManager.ts:388-403`): record the sample, keep the last 100, recompute
the average and the maximum.  It never touches `corrections`. -/
def updateSyncMetrics (m : SyncMetrics) (drift : ℚ) : SyncMetrics :=
  let history0 := m.driftHistory ++ [drift]
  let history := if history0.length > MAX_DRIFT_HISTORY
                 then history0.drop 1 else history0
  { m with
    drift := drift
    driftHistory := history
    averageDrift := (history.foldr (· + ·) 0) / history.length
    maxDrift := max m.maxDrift drift }

/-- `VIDEO_SYNC_TOLERANCE = this.SYNC_TOLERANCE` of `VideoJsManager.ts:30`:
200 ms. -/
def VIDEO_SYNC_TOLERANCE : ℚ := 200

/-- `AUDIO_SYNC_TOLERANCE = this.SYNC_TOLERANCE` of `AudioManager.ts:35`:
100 ms. -/
def AUDIO_SYNC_TOLERANCE : ℚ := 100

/-- The state `syncCurrentVideo` touches (`VideoJsManager.ts`): the
Video.js player's observable position/duration/paused/rate (`hasPlayer`
models `this.player !== null`; `playerDuration = 0` models a falsy
`player.duration()`), and the manager's seeking flag, correction throttle
and metrics. -/
structure VideoManagerState where
  hasPlayer : Bool
  playerTime : ℚ
  playerDuration : ℚ
  playerPaused : Bool
  playerRate : ℚ
  isSeeking : Bool
  lastSyncTime : ℚ
  metrics : SyncMetrics
  deriving DecidableEq, Repr

/-- What one `syncCurrentVideo` / `syncCurrentAudio` pass did to its native
source: the position write it issued, if any, and whether it asked the
source to start playing. -/
structure SyncEffects where
  positionWrite : Option ℚ
  startedPlayback : Bool
  deriving DecidableEq, Repr

/-- The correction decision inside `syncCurrentVideo`
(`VideoJsManager.ts:640-665`): correct only when the drift exceeds
`SYNC_TOLERANCE`, the manager is not seeking, the 2 s throttle has
elapsed, and the residual difference to the clamped target exceeds
500 ms; a correction marks the manager seeking, writes the player's
position and bumps the corrections counter. -/
def syncVideoCorrectionStep (vm : VideoManagerState)
    (videoTime videoDuration currentVideoTime drift now : ℚ) :
    VideoManagerState × SyncEffects :=
  if drift > VIDEO_SYNC_TOLERANCE ∧ ¬ vm.isSeeking then
    if now - vm.lastSyncTime > 2000 then
      let targetTime :=
        max 0 (min videoTime
          (if videoDuration ≠ 0 then videoDuration else videoTime))
      if |currentVideoTime - targetTime| > 1/2 then
        ({ vm with
           isSeeking := true
           playerTime := targetTime
           lastSyncTime := now
           metrics := { vm.metrics with
                        corrections := vm.metrics.corrections + 1 } },
         ⟨some targetTime, false⟩)
      else (vm, ⟨none, false⟩)
    else (vm, ⟨none, false⟩)
  else (vm, ⟨none, false⟩)

/-- `syncCurrentVideo(masterTime, playbackRate, item)`
(`VideoJsManager.ts:624-678`): measure the drift of the player against
`calculateItemRelativeTime`, update the metrics, apply the correction
decision, then match the playback rate and restart a paused player that
should be playing.  `now` is the source's `Date.now()`. -/
def syncCurrentVideo (vm : VideoManagerState)
    (masterTime playbackRate : ℚ) (item : TrackItem) (now : ℚ) :
    VideoManagerState × SyncEffects :=
  if ¬ vm.hasPlayer ∨ vm.isSeeking then (vm, ⟨none, false⟩)
  else
    let videoTime := calculateItemRelativeTime item masterTime
    let videoDuration := if qTruthy item.duration_ms
                         then item.duration_ms.getD 0 / 1000
                         else vm.playerDuration
    if videoTime < 0 ∨ (videoDuration ≠ 0 ∧ videoTime > videoDuration + 1/2)
    then (vm, ⟨none, false⟩)
    else
      let currentVideoTime := vm.playerTime
      let drift := |currentVideoTime - videoTime| * 1000
      let vm1 := { vm with metrics := updateSyncMetrics vm.metrics drift }
      let afterCorrection :=
        syncVideoCorrectionStep vm1 videoTime videoDuration currentVideoTime
          drift now
      let vm2 := afterCorrection.1
      let vm3 := if |vm2.playerRate - playbackRate| > 1/100
                 then { vm2 with playerRate := playbackRate } else vm2
      if vm3.playerPaused ∧ videoTime ≥ 0 ∧
          (videoDuration = 0 ∨ videoTime < videoDuration) then
        ({ vm3 with playerPaused := false },
         { afterCorrection.2 with startedPlayback := true })
      else (vm3, afterCorrection.2)

/-- The state `syncCurrentAudio` touches (`AudioManager.ts`):
the `<audio>` element's observable position/duration/paused/readyState
(`hasAudioElement` models `this.audioElement !== null`;
`elementDuration = 0` models a falsy `audioElement.duration`), and the
manager's seek timestamp, buffering flag, rate, play throttle and
metrics. -/
structure AudioManagerState where
  hasAudioElement : Bool
  elementTime : ℚ
  elementDuration : ℚ
  elementPaused : Bool
  elementReadyState : ℕ
  playPromisePending : Bool
  isBuffering : Bool
  currentPlaybackRate : ℚ
  lastSeekTimestamp : ℚ
  lastPlayAttemptTime : ℚ
  metrics : SyncMetrics
  deriving DecidableEq, Repr

/-- The correction decision inside `syncCurrentAudio`
(`AudioManager.ts:336-351`): correct only when the drift exceeds
`SYNC_TOLERANCE` *and* 200 ms, at least 1 s after the last seek and not
while buffering; a correction writes the element's position and bumps the
corrections counter. -/
def syncAudioCorrectionStep (am : AudioManagerState)
    (audioTime audioDuration drift now : ℚ) :
    AudioManagerState × SyncEffects :=
  if drift > AUDIO_SYNC_TOLERANCE then
    if drift > 200 ∧ now - am.lastSeekTimestamp > 1000 ∧
        ¬ am.isBuffering then
      let clampedTime :=
        max 0 (min audioTime
          (if audioDuration ≠ 0 then audioDuration else audioTime))
      ({ am with
         elementTime := clampedTime
         metrics := { am.metrics with
                      corrections := am.metrics.corrections + 1 } },
       ⟨some clampedTime, false⟩)
    else (am, ⟨none, false⟩)
  else (am, ⟨none, false⟩)

/-- `syncCurrentAudio(masterTime, playbackRate, item)`
(`AudioManager.ts:298-384`): skip within 500 ms of a seek, pause outside
the item's span, measure the drift against `calculateItemRelativeTime`,
update the metrics, apply the correction decision, then match the rate and
restart a paused element that should be playing (throttled to one attempt
per second).  `now` is the source's `Date.now()`. -/
def syncCurrentAudio (am : AudioManagerState)
    (masterTime playbackRate : ℚ) (item : TrackItem) (now : ℚ) :
    AudioManagerState × SyncEffects :=
  if ¬ am.hasAudioElement then (am, ⟨none, false⟩)
  else if now - am.lastSeekTimestamp < 500 then (am, ⟨none, false⟩)
  else
    let audioTime := calculateItemRelativeTime item masterTime
    let audioDuration := if qTruthy item.duration_ms
                         then item.duration_ms.getD 0 / 1000
                         else am.elementDuration
    if audioTime < 0 then
      (if ¬ am.elementPaused then { am with elementPaused := true } else am,
       ⟨none, false⟩)
    else if audioDuration ≠ 0 ∧ audioTime > audioDuration + 1/10 then
      (if ¬ am.elementPaused then { am with elementPaused := true } else am,
       ⟨none, false⟩)
    else
      let currentAudioTime := am.elementTime
      let drift := |currentAudioTime - audioTime| * 1000
      let am1 := { am with metrics := updateSyncMetrics am.metrics drift }
      let afterCorrection :=
        syncAudioCorrectionStep am1 audioTime audioDuration drift now
      let am2 := afterCorrection.1
      let am3 := if |am2.currentPlaybackRate - playbackRate| > 1/100
                 then { am2 with currentPlaybackRate := playbackRate } else am2
      if am3.elementPaused ∧ audioTime ≥ 0 ∧
          (audioDuration = 0 ∨ audioTime < audioDuration) then
        if am3.elementReadyState ≥ 2 ∧ ¬ am3.playPromisePending ∧
            now - am3.lastPlayAttemptTime > 1000 then
          ({ am3 with lastPlayAttemptTime := now, playPromisePending := true },
           { afterCorrection.2 with startedPlayback := true })
        else (am3, afterCorrection.2)
      else (am3, afterCorrection.2)

/-- The three-item video track of the spec's scenarios:
`[0–30000), [30000–90000), [90000–120000)`. -/
def scenarioItem1 : TrackItem := ⟨"v1", "v1.mp4", 0, some 30000, none⟩

def scenarioItem2 : TrackItem := ⟨"v2", "v2.mp4", 30000, some 60000, none⟩

def scenarioItem3 : TrackItem := ⟨"v3", "v3.mp4", 90000, some 30000, none⟩

def scenarioItems : List TrackItem := [scenarioItem1, scenarioItem2, scenarioItem3]

/-- The hypotheses of claim C1 on an item list: each half-open range
`[start_ms, effectiveEnd)` is a range (`start ≤ end`), the list is sorted
ascending by `start_ms`, and consecutive ranges do not overlap. -/
def WellFormedItems (items : List TrackItem) : Prop :=
  (∀ i, i < items.length → sIdx items i ≤ eIdx items i) ∧
  (∀ i, i + 1 < items.length → sIdx items i ≤ sIdx items (i + 1)) ∧
  (∀ i, i + 1 < items.length → eIdx items i ≤ sIdx items (i + 1))

/-- `t` lies in the half-open range of `items[i]`. -/
def containsAt (items : List TrackItem) (t : ℚ) (i : ℕ) : Prop :=
  sIdx items i ≤ t ∧ t < eIdx items i

/-- An item whose duration is present but zero (for claim C5's boundary
analysis): JavaScript's `if (item.duration_ms)` treats it as absent. -/
def zeroDurationItem : TrackItem := ⟨"z", "z.mp4", 0, some 0, none⟩

/-- The clock state of the C4 scenario: position `118000` ms of a
`120000` ms presentation, video-driven, playing, not seeking. -/
def c4State : ClockState :=
  { currentTime := 118000
    duration := 120000
    playbackRate := 1
    isPlaying := true
    startTime := 0
    lastUpdateTime := 0
    useVideoSync := true
    lastVideoUpdateTime := 0
    isSeeking := false
    lastSeekTime := 0
    lastSeekTimestamp := 0
    seekInFlight := false
    lastJumpTime := 0
    updateLoopRunning := true
    syncIntervalRunning := true }

/-- An item that passes every validation check. -/
def validItem : ManifestItem :=
  { id := "v1", file := "v1.mp4", start_ms := some 0 }

/-- A track that passes every validation check. -/
def validTrack : ManifestTrack :=
  { id := "t1", type := "video", items := some [validItem] }

/-- A manifest that passes every validation check. -/
def validManifest : Manifest :=
  { version := some "1.0", duration_ms := some 120000,
    tracks := some [validTrack] }

/-- A manifest with a declared duration of `0`, which validation rejects. -/
def invalidManifest : Manifest :=
  { version := some "1.0", duration_ms := some 0, tracks := some [] }

/-- A video manager tracking the third scenario item at master time
`95000` with 100 ms of drift (below the 200 ms tolerance). -/
def c8VideoState : VideoManagerState :=
  { hasPlayer := true
    playerTime := 5 + 1/10
    playerDuration := 30
    playerPaused := false
    playerRate := 1
    isSeeking := false
    lastSyncTime := 0
    metrics := ⟨0, 0, 0, 0, []⟩ }

/-- An audio manager tracking the third scenario item at master time
`95000` with 20 ms of drift (below the 100 ms tolerance). -/
def c8AudioState : AudioManagerState :=
  { hasAudioElement := true
    elementTime := 5 + 1/50
    elementDuration := 30
    elementPaused := false
    elementReadyState := 4
    playPromisePending := false
    isBuffering := false
    currentPlaybackRate := 1
    lastSeekTimestamp := 0
    lastPlayAttemptTime := 0
    metrics := ⟨0, 0, 0, 0, []⟩ }

/-! ## Helper lemmas for the timeline index -/

theorem chainLe (items : List TrackItem) (hwf : WellFormedItems items) :
    ∀ j, j < items.length → ∀ i, i < j → eIdx items i ≤ sIdx items j := by
  intro j
  induction j with
  | zero => intro _ i hi; exact absurd hi (Nat.not_lt_zero i)
  | succ j ih =>
    intro hj i hi
    have hij : i < j ∨ i = j := by omega
    rcases hij with h | h
    · have h1 : eIdx items i ≤ sIdx items j := ih (by omega) i h
      have h2 : sIdx items j ≤ eIdx items j := hwf.1 j (by omega)
      have h3 : eIdx items j ≤ sIdx items (j + 1) := hwf.2.2 j hj
      linarith
    · subst h
      exact hwf.2.2 i hj

theorem sIdxMono (items : List TrackItem) (hwf : WellFormedItems items) :
    ∀ i j, i ≤ j → j < items.length → sIdx items i ≤ sIdx items j := by
  intro i j hij hj
  rcases eq_or_lt_of_le hij with h | h
  · rw [h]
  · have h1 : sIdx items i ≤ eIdx items i := hwf.1 i (by omega)
    have h2 : eIdx items i ≤ sIdx items j := chainLe items hwf j hj i h
    linarith

theorem containsUnique (items : List TrackItem) (t : ℚ)
    (hwf : WellFormedItems items) :
    ∀ k l, k < items.length → l < items.length →
      containsAt items t k → containsAt items t l → k = l := by
  intro k l hk hl ck cl
  by_contra hne
  rcases Nat.lt_or_ge k l with h | h
  · have h1 : eIdx items k ≤ sIdx items l := chainLe items hwf l hl k h
    have h2 := ck.2
    have h3 := cl.1
    linarith
  · have hlk : l < k := by omega
    have h1 : eIdx items l ≤ sIdx items k := chainLe items hwf k hk l hlk
    have h2 := cl.2
    have h3 := ck.1
    linarith

theorem noContainsOfTerminal (items : List TrackItem) (t : ℚ)
    (hwf : WellFormedItems items) (_hne : items.length ≠ 0)
    (ht : t = eIdx items (items.length - 1)) :
    ∀ j, j < items.length → ¬ containsAt items t j := by
  intro j hj hc
  by_cases hj' : j = items.length - 1
  · subst hj'
    have h2 := hc.2
    rw [← ht] at h2
    exact absurd h2 (lt_irrefl t)
  · have hjlt : j < items.length - 1 := by omega
    have h1 : eIdx items j ≤ sIdx items (items.length - 1) :=
      chainLe items hwf (items.length - 1) (by omega) j hjlt
    have h2 : sIdx items (items.length - 1) ≤ eIdx items (items.length - 1) :=
      hwf.1 _ (by omega)
    have h3 := hc.2
    rw [ht] at h3
    linarith

theorem midIdx_ge (left rp1 : ℕ) (h : left < rp1) : left ≤ midIdx left rp1 := by
  unfold midIdx
  omega

theorem midIdx_lt (left rp1 : ℕ) (h : left < rp1) : midIdx left rp1 < rp1 := by
  unfold midIdx
  omega

theorem findLoopOfContains (items : List TrackItem) (t : ℚ)
    (hwf : WellFormedItems items) (k : ℕ) (hkn : k < items.length)
    (hk : containsAt items t k) :
    ∀ fuel left rp1, rp1 ≤ items.length → rp1 - left ≤ fuel →
      (∀ j, j < items.length → containsAt items t j → left ≤ j ∧ j < rp1) →
      findLoop items t fuel left rp1 = some (itemAt items k) := by
  intro fuel
  induction fuel with
  | zero =>
    intro left rp1 _ hsize hinv
    exfalso
    have := hinv k hkn hk
    omega
  | succ fuel ih =>
    intro left rp1 hrp1 hsize hinv
    obtain ⟨hlk, hkr⟩ := hinv k hkn hk
    have hlr : left < rp1 := by omega
    have hmge := midIdx_ge left rp1 hlr
    have hmlt := midIdx_lt left rp1 hlr
    have hmn : midIdx left rp1 < items.length := by omega
    simp only [findLoop]
    rw [if_pos hlr]
    by_cases hcm : sIdx items (midIdx left rp1) ≤ t ∧
        t < eIdx items (midIdx left rp1)
    · rw [if_pos hcm]
      have heq : midIdx left rp1 = k :=
        containsUnique items t hwf _ k hmn hkn hcm hk
      rw [heq]
    · rw [if_neg hcm]
      by_cases hsp : midIdx left rp1 = items.length - 1 ∧
          t = eIdx items (midIdx left rp1)
      · exfalso
        have hne : items.length ≠ 0 := by omega
        have ht : t = eIdx items (items.length - 1) := by
          rw [← hsp.1]
          exact hsp.2
        exact noContainsOfTerminal items t hwf hne ht k hkn hk
      · rw [if_neg hsp]
        by_cases hlt : t < sIdx items (midIdx left rp1)
        · rw [if_pos hlt]
          apply ih left (midIdx left rp1) (by omega) (by omega)
          intro j hj hcj
          obtain ⟨hlj, _⟩ := hinv j hj hcj
          refine ⟨hlj, ?_⟩
          by_contra hge
          push_neg at hge
          have h1 : sIdx items (midIdx left rp1) ≤ sIdx items j :=
            sIdxMono items hwf _ j hge hj
          have h2 := hcj.1
          linarith
        · rw [if_neg hlt]
          push_neg at hlt
          have hem : eIdx items (midIdx left rp1) ≤ t := by
            by_contra h
            push_neg at h
            exact hcm ⟨hlt, h⟩
          apply ih (midIdx left rp1 + 1) rp1 hrp1 (by omega)
          intro j hj hcj
          obtain ⟨_, hjr⟩ := hinv j hj hcj
          refine ⟨?_, hjr⟩
          by_contra hle
          push_neg at hle
          have hjm : j ≤ midIdx left rp1 := by omega
          rcases eq_or_lt_of_le hjm with he | hl
          · exact hcm (he ▸ hcj)
          · have h1 : eIdx items j ≤ sIdx items (midIdx left rp1) :=
              chainLe items hwf (midIdx left rp1) hmn j hl
            have h2 := hcj.2
            linarith

theorem findLoopOfTerminal (items : List TrackItem) (t : ℚ)
    (hwf : WellFormedItems items) (hne : items.length ≠ 0)
    (ht : t = eIdx items (items.length - 1)) :
    ∀ fuel left rp1, rp1 = items.length → rp1 - left ≤ fuel →
      left ≤ items.length - 1 →
      findLoop items t fuel left rp1 = some (itemAt items (items.length - 1)) := by
  have hnc := noContainsOfTerminal items t hwf hne ht
  intro fuel
  induction fuel with
  | zero =>
    intro left rp1 hrp hsize hleft
    exfalso
    omega
  | succ fuel ih =>
    intro left rp1 hrp hsize hleft
    have hlr : left < rp1 := by omega
    have hmge := midIdx_ge left rp1 hlr
    have hmlt := midIdx_lt left rp1 hlr
    have hmn : midIdx left rp1 < items.length := by omega
    simp only [findLoop]
    rw [if_pos hlr]
    have hcm : ¬ (sIdx items (midIdx left rp1) ≤ t ∧
        t < eIdx items (midIdx left rp1)) := hnc _ hmn
    rw [if_neg hcm]
    by_cases hm : midIdx left rp1 = items.length - 1
    · have hte : t = eIdx items (midIdx left rp1) := by
        rw [hm]
        exact ht
      rw [if_pos ⟨hm, hte⟩, hm]
    · have hsp : ¬ (midIdx left rp1 = items.length - 1 ∧
          t = eIdx items (midIdx left rp1)) := fun h => hm h.1
      rw [if_neg hsp]
      have hstle : sIdx items (midIdx left rp1) ≤ t := by
        have h1 : sIdx items (midIdx left rp1) ≤ sIdx items (items.length - 1) :=
          sIdxMono items hwf _ _ (by omega) (by omega)
        have h2 : sIdx items (items.length - 1) ≤ eIdx items (items.length - 1) :=
          hwf.1 _ (by omega)
        rw [ht]
        linarith
      rw [if_neg (not_lt.mpr hstle)]
      exact ih (midIdx left rp1 + 1) rp1 hrp (by omega) (by omega)

theorem findLoopNone (items : List TrackItem) (t : ℚ)
    (hnc : ∀ j, j < items.length → ¬ containsAt items t j)
    (hnt : items.length = 0 ∨ t ≠ eIdx items (items.length - 1)) :
    ∀ fuel left rp1, rp1 ≤ items.length →
      findLoop items t fuel left rp1 = none := by
  intro fuel
  induction fuel with
  | zero => intro left rp1 _; rfl
  | succ fuel ih =>
    intro left rp1 hrp1
    by_cases hlr : left < rp1
    · have hmlt := midIdx_lt left rp1 hlr
      have hmn : midIdx left rp1 < items.length := by omega
      simp only [findLoop]
      rw [if_pos hlr]
      have hcm : ¬ (sIdx items (midIdx left rp1) ≤ t ∧
          t < eIdx items (midIdx left rp1)) := hnc _ hmn
      rw [if_neg hcm]
      have hsp : ¬ (midIdx left rp1 = items.length - 1 ∧
          t = eIdx items (midIdx left rp1)) := by
        rintro ⟨h1, h2⟩
        rcases hnt with h | h
        · omega
        · exact h (by rw [← h1]; exact h2)
      rw [if_neg hsp]
      by_cases hlt : t < sIdx items (midIdx left rp1)
      · rw [if_pos hlt]
        exact ih left (midIdx left rp1) (by omega)
      · rw [if_neg hlt]
        exact ih (midIdx left rp1 + 1) rp1 hrp1
    · simp only [findLoop]
      rw [if_neg hlr]

/-! ## Claim theorems -/

/-- Claim C1: for every sorted, non-overlapping item list and every time,
`findItemAtTime` returns the unique item whose half-open interval contains
the clamped time; when the clamped time equals the last item's effective
end it returns the last item; in every other case (gap, past the end,
empty list) it returns `none`. -/
theorem findItemAtTime_spec (items : List TrackItem) (timeMs : ℚ)
    (hwf : WellFormedItems items) :
    (∀ k, k < items.length → containsAt items (max 0 timeMs) k →
        findItemAtTime items timeMs = some (itemAt items k)) ∧
    (∀ k l, k < items.length → l < items.length →
        containsAt items (max 0 timeMs) k →
        containsAt items (max 0 timeMs) l → k = l) ∧
    (items.length ≠ 0 → max 0 timeMs = eIdx items (items.length - 1) →
        findItemAtTime items timeMs = some (itemAt items (items.length - 1))) ∧
    ((∀ k, k < items.length → ¬ containsAt items (max 0 timeMs) k) →
        (items.length = 0 ∨ max 0 timeMs ≠ eIdx items (items.length - 1)) →
        findItemAtTime items timeMs = none) := by
  refine ⟨?_, ?_, ?_, ?_⟩
  · intro k hk hck
    have hne : ¬ items.length = 0 := by omega
    simp only [findItemAtTime]
    rw [if_neg hne]
    exact findLoopOfContains items (max 0 timeMs) hwf k hk hck items.length 0
      items.length le_rfl (by omega) (fun j hj _ => ⟨Nat.zero_le j, hj⟩)
  · exact containsUnique items (max 0 timeMs) hwf
  · intro hne ht
    simp only [findItemAtTime]
    rw [if_neg hne]
    exact findLoopOfTerminal items (max 0 timeMs) hwf hne ht items.length 0
      items.length rfl (by omega) (by omega)
  · intro hnc hnt
    by_cases h0 : items.length = 0
    · simp only [findItemAtTime]
      rw [if_pos h0]
    · simp only [findItemAtTime]
      rw [if_neg h0]
      exact findLoopNone items (max 0 timeMs) hnc hnt items.length 0
        items.length le_rfl

/-- Witness for claim C1 at the spec's scenario: on the three-item track
the lookup at the exact terminal boundary `t = 120000` returns the third
item, not `none`. -/
theorem findItemAtTime_spec_witness :
    findItemAtTime scenarioItems 120000 = some scenarioItem3 := by
  have hwf : WellFormedItems scenarioItems := by
    refine ⟨?_, ?_, ?_⟩ <;>
      · intro i hi
        norm_num [scenarioItems] at hi
        have hi3 : i < 3 := by omega
        interval_cases i <;>
          first
            | omega
            | norm_num [sIdx, eIdx, itemAt, effectiveEnd, qTruthy, scenarioItems,
                scenarioItem1, scenarioItem2, scenarioItem3]
  have h := (findItemAtTime_spec scenarioItems 120000 hwf).2.2.1
    (by norm_num [scenarioItems])
    (by norm_num [eIdx, itemAt, effectiveEnd, qTruthy, scenarioItems,
      scenarioItem3])
  rw [h]
  norm_num [itemAt, scenarioItems]

/-- Claim C5, counterexample to the clause "clamped above by
`duration_ms / 1000` whenever the item's duration is known": for an item
whose duration is present but `0`, JavaScript's `if (item.duration_ms)`
treats the duration as falsy and skips the cap, so at 1000 ms past the
start the result is `1`, above `duration_ms / 1000 = 0`. -/
theorem calculateItemRelativeTime_zeroDuration_counterexample :
    zeroDurationItem.duration_ms = some 0 ∧
    calculateItemRelativeTime zeroDurationItem 1000 = 1 ∧
    ¬ calculateItemRelativeTime zeroDurationItem 1000 ≤ (0 : ℚ) / 1000 := by
  norm_num [calculateItemRelativeTime, qTruthy, zeroDurationItem]

/-- Claim C5 as amended: `calculateItemRelativeTime` is monotone in the
time (for items with non-negative durations), non-negative, capped at
`duration_ms / 1000` whenever the duration is known *and non-zero*, and at
`95000` on the third scenario item it is `5.0` seconds. -/
theorem calculateItemRelativeTime_spec :
    (∀ (item : TrackItem) (t1 t2 : ℚ),
      (∀ d, item.duration_ms = some d → 0 ≤ d) → t1 ≤ t2 →
      calculateItemRelativeTime item t1 ≤ calculateItemRelativeTime item t2) ∧
    (∀ (item : TrackItem) (t : ℚ),
      (∀ d, item.duration_ms = some d → 0 ≤ d) →
      0 ≤ calculateItemRelativeTime item t) ∧
    (∀ (item : TrackItem) (t : ℚ) (d : ℚ),
      item.duration_ms = some d → 0 < d →
      calculateItemRelativeTime item t ≤ d / 1000) ∧
    calculateItemRelativeTime scenarioItem3 95000 = 5 := by
  have hlb : ∀ (item : TrackItem) (t : ℚ),
      (∀ d, item.duration_ms = some d → 0 ≤ d) →
      0 ≤ calculateItemRelativeTime item t := by
    intro item t hd
    simp only [calculateItemRelativeTime]
    by_cases hneg : t - item.start_ms < 0
    · rw [if_pos hneg]
    · rw [if_neg hneg]
      push_neg at hneg
      by_cases htr : qTruthy item.duration_ms
      · rw [if_pos htr]
        refine le_min (div_nonneg hneg (by norm_num)) ?_
        cases hdm : item.duration_ms with
        | none => rw [hdm] at htr; exact absurd htr (by simp [qTruthy])
        | some d =>
          rw [Option.getD_some]
          exact div_nonneg (hd d hdm) (by norm_num)
      · rw [if_neg htr]
        exact div_nonneg hneg (by norm_num)
  refine ⟨?_, hlb, ?_, ?_⟩
  · intro item t1 t2 hd h12
    by_cases h1 : t1 - item.start_ms < 0
    · have e1 : calculateItemRelativeTime item t1 = 0 := by
        simp only [calculateItemRelativeTime]
        rw [if_pos h1]
      rw [e1]
      exact hlb item t2 hd
    · have h2 : ¬ t2 - item.start_ms < 0 := by
        push_neg at h1 ⊢
        linarith
      simp only [calculateItemRelativeTime]
      rw [if_neg h1, if_neg h2]
      by_cases htr : qTruthy item.duration_ms
      · rw [if_pos htr, if_pos htr]
        exact min_le_min ((div_le_div_iff_of_pos_right (by norm_num)).mpr
          (by linarith)) le_rfl
      · rw [if_neg htr, if_neg htr]
        exact (div_le_div_iff_of_pos_right (by norm_num)).mpr (by linarith)
  · intro item t d hdm hdpos
    have htr : qTruthy item.duration_ms = true := by
      rw [hdm]
      simp only [qTruthy, decide_eq_true_eq]
      exact ne_of_gt hdpos
    simp only [calculateItemRelativeTime]
    by_cases h1 : t - item.start_ms < 0
    · rw [if_pos h1]
      exact div_nonneg (le_of_lt hdpos) (by norm_num)
    · rw [if_neg h1, if_pos htr, hdm, Option.getD_some]
      exact min_le_right _ _
  · norm_num [calculateItemRelativeTime, qTruthy, scenarioItem3]

/-- Witness for the amended claim C5: monotonicity and the duration cap at
concrete inputs on the third scenario item. -/
theorem calculateItemRelativeTime_spec_witness :
    calculateItemRelativeTime scenarioItem3 91000 ≤
      calculateItemRelativeTime scenarioItem3 95000 ∧
    calculateItemRelativeTime scenarioItem3 95000 ≤ 30000 / 1000 :=
  ⟨calculateItemRelativeTime_spec.1 scenarioItem3 91000 95000
      (fun d hd => by
        rw [show scenarioItem3.duration_ms = some 30000 from rfl] at hd
        injection hd with h
        rw [← h]
        norm_num)
      (by norm_num),
   calculateItemRelativeTime_spec.2.2.1 scenarioItem3 95000 30000 rfl
      (by norm_num)⟩

/-- Claim C6: an accepted `setPlaybackRate(r)` with `r ∈ (0, 4]` freezes
the extrapolated position into `currentTime`, re-bases the anchor to the
new rate and emits `RateChange`, and the displayed position immediately
before and after the call is identical (difference `0`, hence below any
tick interval); a rejected rate (`r ≤ 0` or `r > 4`) leaves every field of
the state unchanged and emits nothing. -/
theorem setPlaybackRate_spec (st : ClockState) (rate now : ℚ) :
    (0 < rate ∧ rate ≤ 4 →
      displayedPosition (setPlaybackRate st rate now).1 now =
        displayedPosition st now ∧
      (setPlaybackRate st rate now).1.playbackRate = rate ∧
      (setPlaybackRate st rate now).1.isPlaying = st.isPlaying ∧
      (setPlaybackRate st rate now).2 =
        some ⟨ClockEventType.ratechange,
              (setPlaybackRate st rate now).1.currentTime, rate,
              st.isPlaying⟩ ∧
      (st.isPlaying = true →
        (setPlaybackRate st rate now).1.currentTime =
          displayedPosition st now)) ∧
    (rate ≤ 0 ∨ rate > 4 → setPlaybackRate st rate now = (st, none)) := by
  constructor
  · rintro ⟨hpos, hle⟩
    have hcond : ¬ (rate ≤ 0 ∨ rate > 4) := by
      push_neg
      exact ⟨hpos, hle⟩
    have hrate : rate ≠ 0 := ne_of_gt hpos
    by_cases hp : st.isPlaying = true
    · refine ⟨?_, ?_, ?_, ?_, fun _ => ?_⟩
      · simp [setPlaybackRate, displayedPosition, hcond, hp]
        try field_simp
        try ring
      · simp [setPlaybackRate, hcond, hp]
      · simp [setPlaybackRate, hcond, hp]
      · simp [setPlaybackRate, hcond, hp]
      · simp [setPlaybackRate, displayedPosition, hcond, hp]
        try field_simp
        try ring
    · refine ⟨?_, ?_, ?_, ?_, fun h => absurd h hp⟩
      · simp [setPlaybackRate, displayedPosition, hcond, hp]
      · simp [setPlaybackRate, hcond, hp]
      · simp [setPlaybackRate, hcond, hp]
      · simp [setPlaybackRate, hcond, hp]
  · intro hcond
    simp only [setPlaybackRate, if_pos hcond]

/-- Witness for claim C6: on the concrete clock state of the scenarios, an
accepted rate `2` keeps the displayed position, and the out-of-range rate
`5` is rejected with the state unchanged. -/
theorem setPlaybackRate_spec_witness :
    displayedPosition (setPlaybackRate c4State 2 100000).1 100000 =
      displayedPosition c4State 100000 ∧
    setPlaybackRate c4State 5 100000 = (c4State, none) :=
  ⟨((setPlaybackRate_spec c4State 2 100000).1 (by norm_num)).1,
   (setPlaybackRate_spec c4State 5 100000).2 (by norm_num)⟩

/-- Claim C9: while playing and self-driven (no video authority, or the
video authority stale by more than 500 ms), when the extrapolated position
reaches or exceeds the duration, one `update()` pass clamps `currentTime`
to exactly the duration, auto-pauses (playing stops and both tickers
stop), and emits `Ended` with `isPlaying = false` (after the `pause` event
that `pause()` itself emits). -/
theorem clockUpdate_ended_spec (st : ClockState) (now : ℚ)
    (hp : st.isPlaying = true) (hs : st.isSeeking = false)
    (hsd : st.useVideoSync = false ∨ now - st.lastVideoUpdateTime > 500)
    (hend : (now - st.startTime) * st.playbackRate ≥ st.duration) :
    (clockUpdate st now).1.currentTime = st.duration ∧
    (clockUpdate st now).1.isPlaying = false ∧
    (clockUpdate st now).1.updateLoopRunning = false ∧
    (clockUpdate st now).1.syncIntervalRunning = false ∧
    (clockUpdate st now).2 =
      [⟨ClockEventType.pause, st.duration, st.playbackRate, false⟩,
       ⟨ClockEventType.ended, st.duration, st.playbackRate, false⟩] := by
  have hsd' : ¬ st.useVideoSync = true ∨ now - st.lastVideoUpdateTime > 500 := by
    rcases hsd with h | h
    · exact Or.inl (by rw [h]; exact Bool.false_ne_true)
    · exact Or.inr h
  have hmin : min ((now - st.startTime) * st.playbackRate) st.duration =
      st.duration := min_eq_right hend
  have hsd2 : (st.useVideoSync = false ∨ 500 < now - st.lastVideoUpdateTime)
      = True := by
    refine eq_true ?_
    rcases hsd with h | h
    · exact Or.inl h
    · exact Or.inr h
  simp [clockUpdate, hs, hp, hsd2, hmin]

/-- Witness for claim C9: the scenario clock, self-driven because the
video source is stale, reaching `130000 > duration = 120000`. -/
theorem clockUpdate_ended_spec_witness :
    (clockUpdate c4State 130000).1.currentTime = 120000 ∧
    (clockUpdate c4State 130000).1.isPlaying = false :=
  ⟨(clockUpdate_ended_spec c4State 130000 rfl rfl
      (Or.inr (by norm_num [c4State])) (by norm_num [c4State])).1.trans rfl,
   (clockUpdate_ended_spec c4State 130000 rfl rfl
      (Or.inr (by norm_num [c4State])) (by norm_num [c4State])).2.1⟩

/-! ## Helper lemmas for the coordinated seek -/

theorem le_foldrMax (l : List ℚ) (x : ℚ) (hx : x ∈ l) : x ≤ l.foldr max 0 := by
  induction l with
  | nil => cases hx
  | cons a l ih =>
    rcases List.mem_cons.mp hx with h | h
    · rw [h]
      exact le_max_left _ _
    · exact le_trans (ih h) (le_max_right _ _)

theorem foldrMax_le (l : List ℚ) (c : ℚ) (hc : 0 ≤ c)
    (h : ∀ x ∈ l, x ≤ c) : l.foldr max 0 ≤ c := by
  induction l with
  | nil => simpa using hc
  | cons a l ih =>
    simp only [List.foldr_cons]
    exact max_le (h a (List.mem_cons_self a l))
      (ih fun x hx => h x (List.mem_cons_of_mem a hx))

/-- Claim C2: in a coordinated seek, every manager branch settles by its
individual 3000 ms timeout (a branch that never settles natively is
resolved exactly at the timeout and counted as that manager's failure
only, never as a rejection), and the `Seek` event carrying the clock's new
position is emitted once the whole fan-out has settled — at the latest
settle time, itself at most the timeout — for every combination of
manager behaviors, i.e. regardless of how many individual seeks failed or
timed out. -/
theorem performSeek_liveness (st : ClockState) (clampedTime now : ℚ)
    (behaviors : List ManagerSeekBehavior) :
    (∀ b ∈ behaviors, branchResolved b = true ∧
        branchSettleTime b ≤ SEEK_TIMEOUT) ∧
    (∀ b ∈ behaviors, b = ManagerSeekBehavior.neverSettles →
        branchSettleTime b = SEEK_TIMEOUT ∧ branchFailed b = true) ∧
    (∀ b ∈ behaviors, branchSettleTime b ≤
        (performSeek st clampedTime now behaviors).2.1) ∧
    (performSeek st clampedTime now behaviors).2.1 ≤ SEEK_TIMEOUT ∧
    (performSeek st clampedTime now behaviors).2.2 =
      ⟨ClockEventType.seek, clampedTime, st.playbackRate, st.isPlaying⟩ ∧
    (performSeek st clampedTime now behaviors).1.currentTime = clampedTime ∧
    (performSeek st clampedTime now behaviors).1.isSeeking = false := by
  have hb : ∀ b : ManagerSeekBehavior, branchSettleTime b ≤ SEEK_TIMEOUT := by
    intro b
    cases b with
    | fulfills a => exact min_le_right _ _
    | rejects a => exact min_le_right _ _
    | neverSettles => exact le_refl _
    | notAPromise => norm_num [branchSettleTime, SEEK_TIMEOUT]
  refine ⟨fun b _ => ⟨rfl, hb b⟩, ?_, ?_, ?_, rfl, rfl, rfl⟩
  · intro b _ hbn
    rw [hbn]
    exact ⟨rfl, rfl⟩
  · intro b hbm
    exact le_foldrMax _ _ (List.mem_map_of_mem branchSettleTime hbm)
  · refine foldrMax_le _ _ (by norm_num [SEEK_TIMEOUT]) ?_
    intro x hx
    obtain ⟨b, _, hbx⟩ := List.mem_map.mp hx
    rw [← hbx]
    exact hb b

/-- Witness for claim C2: a fan-out with one stuck manager, one failing
manager and one fast manager settles at the stuck manager's 3000 ms
timeout, and the `Seek` event carries the clamped target. -/
theorem performSeek_liveness_witness :
    branchSettleTime ManagerSeekBehavior.neverSettles = SEEK_TIMEOUT ∧
    (performSeek c4State 60000 100000
      [ManagerSeekBehavior.neverSettles, ManagerSeekBehavior.rejects 100,
       ManagerSeekBehavior.fulfills 40]).2.2 =
      ⟨ClockEventType.seek, 60000, 1, true⟩ :=
  ⟨((performSeek_liveness c4State 60000 100000
      [ManagerSeekBehavior.neverSettles, ManagerSeekBehavior.rejects 100,
       ManagerSeekBehavior.fulfills 40]).2.1
      ManagerSeekBehavior.neverSettles (by simp) rfl).1,
   ((performSeek_liveness c4State 60000 100000
      [ManagerSeekBehavior.neverSettles, ManagerSeekBehavior.rejects 100,
       ManagerSeekBehavior.fulfills 40]).2.2.2.2.1).trans rfl⟩

/-- Claim C3: when a seek coordinated at clamped target `c1` (time `n1`)
is followed by a second `seek` whose clamped target is within 1 ms of `c1`
and which arrives within the 200 ms debounce window, the second call is
dropped as a duplicate: no new coordination pass, no state change, no
second `Seek` event — it returns the stored (in-flight or resolved)
promise. -/
theorem clockSeek_dedup (st st1 : ClockState) (t1 n1 t2 n2 c1 : ℚ)
    (h1 : clockSeek st t1 n1 = (st1, SeekAction.coordinate c1))
    (hclose : |max 0 (min t2 st1.duration) - c1| < 1)
    (hwin : n2 - n1 < 200) :
    clockSeek st1 t2 n2 = (st1, SeekAction.duplicate) := by
  simp only [clockSeek] at h1
  split_ifs at h1 with hd hw
  · simp only [Prod.mk.injEq] at h1
    exact absurd h1.2 (by simp)
  · simp only [Prod.mk.injEq] at h1
    exact absurd h1.2 (by simp)
  · simp only [Prod.mk.injEq, SeekAction.coordinate.injEq] at h1
    obtain ⟨hst, hc⟩ := h1
    have hlst : st1.lastSeekTime = c1 := by rw [← hst, hc]
    have hts : st1.lastSeekTimestamp = n1 := by rw [← hst]
    simp only [clockSeek]
    rw [if_pos ?_]
    rw [hlst, hts]
    exact ⟨hclose, by linarith⟩

/-- Witness for claim C3: a concrete seek to `60000` at `t = 100000` ms
followed by a seek to `60000.5` at `t = 100100` ms is deduplicated. -/
theorem clockSeek_dedup_witness :
    clockSeek (clockSeek c4State 60000 100000).1 (120001/2) 100100 =
      ((clockSeek c4State 60000 100000).1, SeekAction.duplicate) := by
  have h1 : clockSeek c4State 60000 100000 =
      ((clockSeek c4State 60000 100000).1, SeekAction.coordinate 60000) := by
    norm_num [clockSeek, c4State]
  exact clockSeek_dedup c4State (clockSeek c4State 60000 100000).1
    60000 100000 (120001/2) 100100 60000 h1
    (by norm_num [clockSeek, c4State, abs_lt]) (by norm_num)

/-- Claim C10 (implicit): every coordinated seek applies the target
`max(0, min(t, duration))`: the coordinated target equals the clamp, lies
in `[0, duration]` (for a non-negative duration), and after the
coordination the clock's `currentTime` and the emitted `Seek` event carry
exactly the clamped value, never the raw argument. -/
theorem clockSeek_clamps (st st1 : ClockState) (t now c : ℚ)
    (hdur : 0 ≤ st.duration)
    (h : clockSeek st t now = (st1, SeekAction.coordinate c))
    (nowp : ℚ) (behaviors : List ManagerSeekBehavior) :
    c = max 0 (min t st.duration) ∧ 0 ≤ c ∧ c ≤ st.duration ∧
    (performSeek st1 c nowp behaviors).1.currentTime = c ∧
    (performSeek st1 c nowp behaviors).2.2.time = c ∧
    (performSeek st1 c nowp behaviors).2.2.type = ClockEventType.seek := by
  have hc : c = max 0 (min t st.duration) := by
    simp only [clockSeek] at h
    split_ifs at h
    · simp only [Prod.mk.injEq] at h
      exact absurd h.2 (by simp)
    · simp only [Prod.mk.injEq] at h
      exact absurd h.2 (by simp)
    · simp only [Prod.mk.injEq, SeekAction.coordinate.injEq] at h
      exact h.2.symm
  refine ⟨hc, ?_, ?_, rfl, rfl, rfl⟩
  · rw [hc]
    exact le_max_left 0 _
  · rw [hc]
    exact max_le hdur (min_le_right t st.duration)

/-- Witness for claim C10: a raw target of `200000` on a `120000` ms
presentation is applied as `120000`, and a raw target of `-50` as `0`. -/
theorem clockSeek_clamps_witness :
    (clockSeek c4State 200000 300000).2 = SeekAction.coordinate 120000 ∧
    (performSeek (clockSeek c4State 200000 300000).1 120000 300000
      [ManagerSeekBehavior.fulfills 40]).1.currentTime = 120000 := by
  have h : clockSeek c4State 200000 300000 =
      ((clockSeek c4State 200000 300000).1, SeekAction.coordinate 120000) := by
    norm_num [clockSeek, c4State]
  have hmain := clockSeek_clamps c4State (clockSeek c4State 200000 300000).1
    200000 300000 120000 (by norm_num [c4State]) h 300000
    [ManagerSeekBehavior.fulfills 40]
  exact ⟨by rw [h], hmain.2.2.2.1⟩

/-- Claim C4: `updateTimeFromVideo` leaves `currentTime` unchanged for an
out-of-range report (`t < 0` or `t > duration + 1000`), for an anomalous
reset to exactly `0` while past `1000` ms, and for a large (`> 1000` ms)
or backward (`> 500` ms) jump arriving within `1000` ms of the last
accepted jump; in the scenario `118000 → 0 → 118500` within 300 ms the `0`
update is rejected and the adopted position is `118500`. -/
theorem updateTimeFromVideo_guards (st : ClockState) (t : ℚ) (p : Bool)
    (now : ℚ) :
    (t < 0 ∨ t > st.duration + 1000 →
      (updateTimeFromVideo st t p now).1.currentTime = st.currentTime) ∧
    (t = 0 ∧ st.currentTime > 1000 →
      (updateTimeFromVideo st t p now).1.currentTime = st.currentTime) ∧
    ((|st.currentTime - t| > 1000 ∨ t < st.currentTime - 500) →
      now - st.lastJumpTime < 1000 →
      (updateTimeFromVideo st t p now).1.currentTime = st.currentTime) ∧
    ((updateTimeFromVideo c4State 0 true 100000).1.currentTime = 118000 ∧
      (updateTimeFromVideo
        (updateTimeFromVideo c4State 0 true 100000).1 118500 true
        100300).1.currentTime = 118500) := by
  refine ⟨?_, ?_, ?_, ?_, ?_⟩
  · intro hval
    simp only [updateTimeFromVideo]
    by_cases hs : st.isSeeking = true
    · rw [if_pos hs]
    · rw [if_neg hs]
      by_cases hv : st.useVideoSync = true
      · rw [if_neg (by simp [hv]), if_pos hval]
      · rw [if_pos (by simp [hv])]
  · rintro ⟨hz, hcur⟩
    simp only [updateTimeFromVideo]
    by_cases hs : st.isSeeking = true
    · rw [if_pos hs]
    · rw [if_neg hs]
      by_cases hv : st.useVideoSync = true
      · rw [if_neg (by simp [hv])]
        by_cases hval : t < 0 ∨ t > st.duration + 1000
        · rw [if_pos hval]
        · rw [if_neg hval, if_pos ⟨hz, hcur⟩]
      · rw [if_pos (by simp [hv])]
  · intro hj hrl
    simp only [updateTimeFromVideo]
    by_cases hs : st.isSeeking = true
    · rw [if_pos hs]
    · rw [if_neg hs]
      by_cases hv : st.useVideoSync = true
      · rw [if_neg (by simp [hv])]
        by_cases hval : t < 0 ∨ t > st.duration + 1000
        · rw [if_pos hval]
        · rw [if_neg hval]
          by_cases hrz : t = 0 ∧ st.currentTime > 1000
          · rw [if_pos hrz]
          · rw [if_neg hrz]
            rw [if_pos (Or.inr (Or.inr hj))]
            rw [if_pos ⟨hj, hrl⟩]
      · rw [if_pos (by simp [hv])]
  · norm_num [updateTimeFromVideo, c4State]
  · norm_num [updateTimeFromVideo, c4State]

/-- Witness for claim C4: the anomalous reset guard applied at the
scenario state. -/
theorem updateTimeFromVideo_guards_witness :
    (updateTimeFromVideo c4State 0 true 100000).1.currentTime = 118000 :=
  ((updateTimeFromVideo_guards c4State 0 true 100000).2.1
    ⟨rfl, by norm_num [c4State]⟩).trans rfl

/-! ## Helper lemmas for manifest validation -/

theorem validateItems_error_iff (tid : String) (its : List ManifestItem) :
    (∃ e, validateItems tid its = Except.error e) ↔
      ∃ it ∈ its, it.id = "" ∨ it.file = "" ∨ it.start_ms = none := by
  induction its with
  | nil =>
    simp only [validateItems]
    constructor
    · rintro ⟨e, he⟩
      cases he
    · rintro ⟨it, hit, _⟩
      cases hit
  | cons it rest ih =>
    by_cases hbad : it.id = "" ∨ it.file = "" ∨ it.start_ms = none
    · simp only [validateItems, if_pos hbad]
      constructor
      · intro _
        exact ⟨it, List.mem_cons_self it rest, hbad⟩
      · intro _
        exact ⟨_, rfl⟩
    · simp only [validateItems, if_neg hbad]
      rw [ih]
      constructor
      · rintro ⟨x, hx, hbx⟩
        exact ⟨x, List.mem_cons_of_mem it hx, hbx⟩
      · rintro ⟨x, hx, hbx⟩
        rcases List.mem_cons.mp hx with h | h
        · exact absurd (h ▸ hbx) hbad
        · exact ⟨x, h, hbx⟩

theorem validateItems_ok (tid : String) (its : List ManifestItem)
    (h : ¬ ∃ it ∈ its, it.id = "" ∨ it.file = "" ∨ it.start_ms = none) :
    validateItems tid its = Except.ok () := by
  cases hv : validateItems tid its with
  | error e => exact absurd ((validateItems_error_iff tid its).mp ⟨e, hv⟩) h
  | ok u => cases u; rfl

theorem validateTracks_error_iff (trs : List ManifestTrack) :
    (∃ e, validateTracks trs = Except.error e) ↔
      ∃ tr ∈ trs, (tr.id = "" ∨ tr.type = "" ∨ tr.items = none) ∨
        ∃ its, tr.items = some its ∧
          ∃ it ∈ its, it.id = "" ∨ it.file = "" ∨ it.start_ms = none := by
  induction trs with
  | nil =>
    simp only [validateTracks]
    constructor
    · rintro ⟨e, he⟩
      cases he
    · rintro ⟨tr, htr, _⟩
      cases htr
  | cons tr rest ih =>
    by_cases hbad : tr.id = "" ∨ tr.type = ""
    · simp only [validateTracks, if_pos hbad]
      constructor
      · intro _
        refine ⟨tr, List.mem_cons_self tr rest, Or.inl ?_⟩
        rcases hbad with h | h
        · exact Or.inl h
        · exact Or.inr (Or.inl h)
      · intro _
        exact ⟨_, rfl⟩
    · simp only [validateTracks, if_neg hbad]
      cases hti : tr.items with
      | none =>
        constructor
        · intro _
          exact ⟨tr, List.mem_cons_self tr rest,
            Or.inl (Or.inr (Or.inr hti))⟩
        · intro _
          exact ⟨_, rfl⟩
      | some its =>
        dsimp only
        by_cases hit : ∃ it ∈ its, it.id = "" ∨ it.file = "" ∨
            it.start_ms = none
        · obtain ⟨e, he⟩ := (validateItems_error_iff tr.id its).mpr hit
          rw [he]
          constructor
          · intro _
            exact ⟨tr, List.mem_cons_self tr rest,
              Or.inr ⟨its, hti, hit⟩⟩
          · intro _
            exact ⟨e, rfl⟩
        · rw [validateItems_ok tr.id its hit, ih]
          constructor
          · rintro ⟨x, hx, hbx⟩
            exact ⟨x, List.mem_cons_of_mem tr hx, hbx⟩
          · rintro ⟨x, hx, hbx⟩
            rcases List.mem_cons.mp hx with h | h
            · subst h
              rcases hbx with hb | hb
              · rcases hb with h' | h'
                · exact absurd (Or.inl h') hbad
                · rcases h' with h'' | h''
                  · exact absurd (Or.inr h'') hbad
                  · rw [h''] at hti
                    cases hti
              · obtain ⟨its2, hits2, hbad2⟩ := hb
                rw [hti] at hits2
                injection hits2 with hq
                exact absurd (hq ▸ hbad2) hit
            · exact ⟨x, h, hbx⟩

theorem strTruthy_false_iff (v : Option String) :
    (¬ strTruthy v) ↔ (v = none ∨ v = some "") := by
  cases v with
  | none => simp [strTruthy]
  | some s => simp [strTruthy]

theorem durationInvalid_iff (d : Option ℚ) :
    ((¬ qTruthy d) ∨ d.getD 0 ≤ 0) ↔
      (d = none ∨ ∃ x, d = some x ∧ x ≤ 0) := by
  cases d with
  | none => simp [qTruthy]
  | some x =>
    simp only [qTruthy, Option.getD_some, decide_eq_true_eq, not_not,
      Option.some.injEq]
    constructor
    · rintro (h | h)
      · exact Or.inr ⟨x, rfl, le_of_eq h⟩
      · exact Or.inr ⟨x, rfl, h⟩
    · rintro (h | ⟨y, hy, hle⟩)
      · cases h
      · exact Or.inr (hy ▸ hle)

/-- Claim C7: `validateManifest` throws exactly when the manifest lacks a
version, has `duration_ms` missing or `≤ 0`, lacks a tracks array,
contains a track missing a non-empty `id`, `type`, or `items`, or contains
an item missing a non-empty `id`, a file reference, or a defined
`start_ms` (`start_ms = 0` is accepted); a validation error makes
`loadManifest` fail with that error before any path rewriting, and a valid
manifest is path-rewritten and returned to the caller. -/
theorem validateManifest_spec (m : Manifest)
    (resolve : String → String → String) (isAbsolute : String → Bool)
    (basePath : String) :
    ((∃ e, validateManifest m = Except.error e) ↔ specManifestInvalid m) ∧
    (∀ e, validateManifest m = Except.error e →
      loadManifest resolve isAbsolute m basePath = Except.error e) ∧
    (¬ specManifestInvalid m →
      loadManifest resolve isAbsolute m basePath =
        Except.ok (updateManifestPaths resolve isAbsolute m basePath)) := by
  have hiff : (∃ e, validateManifest m = Except.error e) ↔
      specManifestInvalid m := by
    simp only [validateManifest]
    by_cases hv : ¬ strTruthy m.version
    · rw [if_pos hv]
      constructor
      · intro _
        exact Or.inl ((strTruthy_false_iff m.version).mp hv)
      · intro _
        exact ⟨_, rfl⟩
    · rw [if_neg hv]
      by_cases hd : ¬ qTruthy m.duration_ms ∨ m.duration_ms.getD 0 ≤ 0
      · rw [if_pos hd]
        constructor
        · intro _
          exact Or.inr (Or.inl ((durationInvalid_iff m.duration_ms).mp hd))
        · intro _
          exact ⟨_, rfl⟩
      · rw [if_neg hd]
        cases htr : m.tracks with
        | none =>
          constructor
          · intro _
            exact Or.inr (Or.inr (Or.inl htr))
          · intro _
            exact ⟨_, rfl⟩
        | some tracks =>
          dsimp only
          rw [validateTracks_error_iff tracks]
          constructor
          · rintro ⟨tr, htrm, hb⟩
            rcases hb with hb | hb
            · exact Or.inr (Or.inr (Or.inr (Or.inl
                ⟨tracks, htr, tr, htrm, hb⟩)))
            · obtain ⟨its, hits, it, hitm, hbad⟩ := hb
              exact Or.inr (Or.inr (Or.inr (Or.inr
                ⟨tracks, htr, tr, htrm, its, hits, it, hitm, hbad⟩)))
          · intro hinv
            rcases hinv with h | h | h | h | h
            · exact (hv ((strTruthy_false_iff m.version).mpr h)).elim
            · exact (hd ((durationInvalid_iff m.duration_ms).mpr h)).elim
            · rw [htr] at h
              cases h
            · obtain ⟨tracks2, htr2, tr, htrm, hb⟩ := h
              rw [htr] at htr2
              injection htr2 with hq
              subst hq
              exact ⟨tr, htrm, Or.inl hb⟩
            · obtain ⟨tracks2, htr2, tr, htrm, its, hits, it, hitm, hbad⟩ := h
              rw [htr] at htr2
              injection htr2 with hq
              subst hq
              exact ⟨tr, htrm, Or.inr ⟨its, hits, it, hitm, hbad⟩⟩
  refine ⟨hiff, ?_, ?_⟩
  · intro e he
    simp only [loadManifest, he]
  · intro hni
    have hne : ¬ ∃ e, validateManifest m = Except.error e :=
      fun h => hni (hiff.mp h)
    cases hval : validateManifest m with
    | error e => exact absurd ⟨e, hval⟩ hne
    | ok u =>
      cases u
      simp only [loadManifest, hval]

/-- Witness for claim C7: the zero-duration manifest is rejected; the
well-formed one-track manifest is accepted and returned path-rewritten. -/
theorem validateManifest_spec_witness :
    (∃ e, validateManifest invalidManifest = Except.error e) ∧
    loadManifest (fun _ f => f) (fun _ => true) validManifest "" =
      Except.ok (updateManifestPaths (fun _ f => f) (fun _ => true)
        validManifest "") :=
  ⟨(validateManifest_spec invalidManifest (fun _ f => f) (fun _ => true)
      "").1.mpr
      (Or.inr (Or.inl (Or.inr ⟨0, rfl, le_refl 0⟩))),
   (validateManifest_spec validManifest (fun _ f => f) (fun _ => true)
      "").2.2
      (by simp [specManifestInvalid, validManifest, validTrack, validItem])⟩

/-- Claim C8: a sync pass in which the measured drift (|native position −
timeline-expected position| in ms) is below the manager's tolerance —
200 ms for the video manager, 100 ms for the audio manager — performs zero
corrections: the corrections counter is unchanged and the native source's
current time is not written. -/
theorem sync_drift_conservatism
    (vm : VideoManagerState) (am : AudioManagerState)
    (masterTime playbackRate : ℚ) (item : TrackItem) (now : ℚ)
    (hv : |vm.playerTime - calculateItemRelativeTime item masterTime| * 1000 <
      VIDEO_SYNC_TOLERANCE)
    (ha : |am.elementTime - calculateItemRelativeTime item masterTime| * 1000 <
      AUDIO_SYNC_TOLERANCE) :
    ((syncCurrentVideo vm masterTime playbackRate item now).1.metrics.corrections
        = vm.metrics.corrections ∧
      (syncCurrentVideo vm masterTime playbackRate item now).1.playerTime
        = vm.playerTime ∧
      (syncCurrentVideo vm masterTime playbackRate item now).2.positionWrite
        = none) ∧
    ((syncCurrentAudio am masterTime playbackRate item now).1.metrics.corrections
        = am.metrics.corrections ∧
      (syncCurrentAudio am masterTime playbackRate item now).1.elementTime
        = am.elementTime ∧
      (syncCurrentAudio am masterTime playbackRate item now).2.positionWrite
        = none) := by
  have hvstep : ∀ (w : VideoManagerState) (vt vd : ℚ),
      syncVideoCorrectionStep w vt vd vm.playerTime
        (|vm.playerTime - calculateItemRelativeTime item masterTime| * 1000)
        now = (w, ⟨none, false⟩) := by
    intro w vt vd
    simp only [syncVideoCorrectionStep]
    rw [if_neg]
    rintro ⟨hgt, -⟩
    linarith
  have hastep : ∀ (w : AudioManagerState) (at2 ad : ℚ),
      syncAudioCorrectionStep w at2 ad
        (|am.elementTime - calculateItemRelativeTime item masterTime| * 1000)
        now = (w, ⟨none, false⟩) := by
    intro w at2 ad
    simp only [syncAudioCorrectionStep]
    rw [if_neg]
    intro hgt
    linarith
  constructor
  · simp only [syncCurrentVideo, hvstep]
    split_ifs <;> exact ⟨rfl, rfl, rfl⟩
  · simp only [syncCurrentAudio, hastep]
    split_ifs <;> exact ⟨rfl, rfl, rfl⟩

/-- Witness for claim C8: concrete video (100 ms drift) and audio (20 ms
drift) managers, both below tolerance, write nothing and keep their
correction counters at zero. -/
theorem sync_drift_conservatism_witness :
    (syncCurrentVideo c8VideoState 95000 1 scenarioItem3
      100000).2.positionWrite = none ∧
    (syncCurrentVideo c8VideoState 95000 1 scenarioItem3
      100000).1.metrics.corrections = 0 ∧
    (syncCurrentAudio c8AudioState 95000 1 scenarioItem3
      100000).2.positionWrite = none ∧
    (syncCurrentAudio c8AudioState 95000 1 scenarioItem3
      100000).1.metrics.corrections = 0 := by
  have h := sync_drift_conservatism c8VideoState c8AudioState 95000 1
    scenarioItem3 100000
    (by
      norm_num [c8VideoState, calculateItemRelativeTime, qTruthy,
        scenarioItem3, VIDEO_SYNC_TOLERANCE]
      rw [abs_of_nonneg (show (0 : ℚ) ≤ 1/10 by norm_num)]
      norm_num)
    (by
      norm_num [c8AudioState, calculateItemRelativeTime, qTruthy,
        scenarioItem3, AUDIO_SYNC_TOLERANCE]
      rw [abs_of_nonneg (show (0 : ℚ) ≤ 1/50 by norm_num)]
      norm_num)
  exact ⟨h.1.2.2, h.1.1.trans rfl, h.2.2.2, h.2.1.trans rfl⟩
